import Mathlib

/-!
Shallow embedding of the bairiak flag-enum code generator (`src/lib.rs`).

Strings are modelled as `List Char`; machine integers as `Nat` (each `Bairiak`
variant wraps the natural number that the Rust unsigned integer of the matching
width holds, always `< 2 ^ width` for values produced by the operations here).
Shift amounts are masked by the width (`% 8`, `% 16`, ...), which is the
masking behaviour of an overflowing `<<` on a fixed-width Rust integer; for the
in-range positions the claims quantify over, the mask is the identity.
Fallible Rust functions returning `Result<T, BairiakError>` become
`Except BairiakError T`.  File I/O and YAML deserialization are external
collaborators: the pipeline driver takes their outcomes as parameters and
returns, next to its result, the list of write attempts it makes.
-/

/-- The closed error taxonomy of the crate (`enum BairiakError`). -/
inductive BairiakError where
  | ReadSpecError
  | DeserializeYamlError
  | ParseBairiakEnumsError
  | WriteFileError
  | PositionOutOfRangeError
deriving DecidableEq, Repr

/-- The packed-bit container: a tagged union over five unsigned widths
(`enum Bairiak { U8(u8), U16(u16), U32(u32), U64(u64), U128(u128) }`). -/
inductive Bairiak where
  | U8 (value : Nat)
  | U16 (value : Nat)
  | U32 (value : Nat)
  | U64 (value : Nat)
  | U128 (value : Nat)
deriving DecidableEq, Repr

/-- The `BairiakEnum` trait as an explicit dictionary: a zero-value producer
and the variant-to-bit-position map (`to_u8` returns a `u8` in Rust). -/
structure BairiakEnum (B : Type) where
  get_zero_bairiak : Bairiak
  to_u8 : B → Nat

/-- Bit width of the active variant. -/
def Bairiak.width : Bairiak → Nat
  | .U8 _ => 8
  | .U16 _ => 16
  | .U32 _ => 32
  | .U64 _ => 64
  | .U128 _ => 128

/-- Integer held by the active variant. -/
def Bairiak.value : Bairiak → Nat
  | .U8 v => v
  | .U16 v => v
  | .U32 v => v
  | .U64 v => v
  | .U128 v => v

/-- `Bairiak::is_false`: the bit at the flag's position is unset in the active
integer (`*value & 1 << flag.to_u8() == 0`, matching on the active variant). -/
def Bairiak.is_false {B : Type} (self : Bairiak) (inst : BairiakEnum B) (flag : B) : Bool :=
  match self with
  | .U8 value => value &&& 1 <<< (inst.to_u8 flag % 8) == 0
  | .U16 value => value &&& 1 <<< (inst.to_u8 flag % 16) == 0
  | .U32 value => value &&& 1 <<< (inst.to_u8 flag % 32) == 0
  | .U64 value => value &&& 1 <<< (inst.to_u8 flag % 64) == 0
  | .U128 value => value &&& 1 <<< (inst.to_u8 flag % 128) == 0

/-- `Bairiak::is_true`: `!self.is_false(flag)`. -/
def Bairiak.is_true {B : Type} (self : Bairiak) (inst : BairiakEnum B) (flag : B) : Bool :=
  !(self.is_false inst flag)

/-- One step of `generate_bairiak`'s loop body:
`*value |= 1 << flag_value` on the active variant. -/
def Bairiak.set_flag (self : Bairiak) (flag_value : Nat) : Bairiak :=
  match self with
  | .U8 value => .U8 (value ||| 1 <<< (flag_value % 8))
  | .U16 value => .U16 (value ||| 1 <<< (flag_value % 16))
  | .U32 value => .U32 (value ||| 1 <<< (flag_value % 32))
  | .U64 value => .U64 (value ||| 1 <<< (flag_value % 64))
  | .U128 value => .U128 (value ||| 1 <<< (flag_value % 128))

/-- `generate_bairiak`: start from the zero container and OR in each flag's
bit.  Rust iterates a `HashSet` in unspecified order; the model takes the
visiting order as an explicit list. -/
def generate_bairiak {B : Type} (inst : BairiakEnum B) (flags : List B) : Bairiak :=
  flags.foldl (fun bairiak flag => bairiak.set_flag (inst.to_u8 flag)) inst.get_zero_bairiak

/-- One enum definition of the spec (`struct Enum { name, variants }`). -/
structure Enum where
  name : List Char
  variants : List (List Char)
deriving DecidableEq, Repr

/-- The parsed spec (`struct EnumSpec { enums }`). -/
structure EnumSpec where
  enums : List Enum
deriving DecidableEq, Repr

/-- `\w` of the validation regex, over the ASCII range: letter, digit or
underscore. -/
def isWordChar (c : Char) : Bool :=
  c.isAlphanum || c == '_'

/-- `is_camel_case`: full match of `^[^a-z0-9][\w]*$` (over the ASCII range):
a first character that is neither a lowercase letter nor a digit, followed by
word characters only. -/
def is_camel_case (s : List Char) : Bool :=
  match s with
  | [] => false
  | c :: rest => !(c.isLower || c.isDigit) && rest.all isWordChar

/-- `generete_zero_bairiak`: width selection from the variant count via the
range patterns `0..8`, `8..16`, `16..32`, `32..64`, `64..128`, returning the
textual zero container of the selected width. -/
def generete_zero_bairiak (variants_len : Nat) : Except BairiakError (List Char) :=
  if variants_len < 8 then .ok ("Bairiak::U8(0u8)".data)
  else if variants_len < 16 then .ok ("Bairiak::U16(0u16)".data)
  else if variants_len < 32 then .ok ("Bairiak::U32(0u32)".data)
  else if variants_len < 64 then .ok ("Bairiak::U64(0u64)".data)
  else if variants_len < 128 then .ok ("Bairiak::U128(0u128)".data)
  else .error BairiakError.PositionOutOfRangeError

/-- `validate_enum`: enum-name shape first, then non-emptiness of the
variant list. -/
def validate_enum (name : List Char) (variants : List (List Char)) :
    Except BairiakError Unit :=
  if !(is_camel_case name) then .error BairiakError.ParseBairiakEnumsError
  else if variants.isEmpty then .error BairiakError.ParseBairiakEnumsError
  else .ok ()

/-- Text before the enum name in the emitted header (the format string
`"\n#[repr(u8)]\n#[allow(dead_code)]\n#[derive(Hash, Eq, PartialEq, Debug)]\nenum {} {\n"`). -/
def enumHeaderPre : List Char :=
  ("\n#[repr(u8)]\n#[allow(dead_code)]\n#[derive(Hash, Eq, PartialEq, Debug)]\nenum ").data

/-- Text after the enum name in the emitted header. -/
def enumHeaderPost : List Char := (" \x7b\n").data

/-- The emitted type-definition header up to and including the opening brace. -/
def enumHeader (name : List Char) : List Char :=
  enumHeaderPre ++ name ++ enumHeaderPost

/-- One emitted variant line: `format!("    {} = {},\n", v, i)`. -/
def variantLine (v : List Char) (i : Nat) : List Char :=
  ("    ").data ++ v ++ (" = ").data ++ Nat.toDigits 10 i ++ (",\n").data

/-- Footer text between the closing brace of the enum and the name in the
`impl BairiakEnum for ...` block. -/
def implPre : List Char := ("\x7d\n\nimpl BairiakEnum for ").data

/-- Footer text between the impl name and the zero-container expression. -/
def implMid : List Char :=
  (" \x7b\n    fn get_zero_bairiak() -> Bairiak \x7b\n        ").data

/-- Footer text after the zero-container expression (the `to_u8` body and
closing braces). -/
def implPost : List Char :=
  ("\n    \x7d\n\n    fn to_u8(self) -> u8 \x7b\n        self as u8\n    \x7d\n\x7d\n").data

/-- The emitted trailer: closing brace of the enum plus the whole
`impl BairiakEnum` block with the zero container of the selected width. -/
def enumFooter (name zero : List Char) : List Char :=
  implPre ++ name ++ implMid ++ zero ++ implPost

/-- The variant loop of `generate_enum`: validate each variant name in order
(first violation aborts with `ParseBairiakEnumsError`) and emit its
discriminant line `    v = i,`. -/
def variantsCode (variants : List (List Char)) (i : Nat) :
    Except BairiakError (List Char) :=
  match variants with
  | [] => .ok []
  | v :: rest =>
    if is_camel_case v then
      match variantsCode rest (i + 1) with
      | .ok tail => .ok (variantLine v i ++ tail)
      | .error err => .error err
    else .error BairiakError.ParseBairiakEnumsError

/-- `generate_enum`: validate name and non-emptiness, build the header,
select the width (before the variant loop, as in the source), then run the
variant loop and append the footer. -/
def generate_enum (e : Enum) : Except BairiakError (List Char) :=
  match validate_enum e.name e.variants with
  | .error err => .error err
  | .ok _ =>
    match generete_zero_bairiak e.variants.length with
    | .error err => .error err
    | .ok zero =>
      match variantsCode e.variants 0 with
      | .error err => .error err
      | .ok body => .ok (enumHeader e.name ++ body ++ enumFooter e.name zero)

/-- `generate_enums`: concatenate the fragments of all enums in spec order,
propagating the first failure. -/
def generate_enums (enums : List Enum) : Except BairiakError (List Char) :=
  match enums with
  | [] => .ok []
  | e :: rest =>
    match generate_enum e with
    | .error err => .error err
    | .ok code =>
      match generate_enums rest with
      | .ok tail => .ok (code ++ tail)
      | .error err => .error err

/-- The fixed import preamble `use bairiak::{Bairiak, BairiakEnum};`. -/
def imports_code : List Char :=
  ("use bairiak::\x7bBairiak, BairiakEnum\x7d;").data

/-- `generate_bairiak_enums`: the pipeline driver.  The outcomes of the two
external collaborators are parameters: `readRes` is the result of reading the
spec file, `deser` the YAML deserializer, `writeOk` whether the final write
succeeds.  The second component of the result collects every write attempt
(content to be written), in order. -/
def generate_bairiak_enums (readRes : Except Unit (List Char))
    (deser : List Char → Except Unit EnumSpec) (writeOk : Bool) :
    Except BairiakError Unit × List (List Char) :=
  match readRes with
  | .error _ => (.error BairiakError.ReadSpecError, [])
  | .ok yaml_content =>
    match deser yaml_content with
    | .error _ => (.error BairiakError.DeserializeYamlError, [])
    | .ok enums =>
      match generate_enums enums.enums with
      | .error err => (.error err, [])
      | .ok enums_code =>
        let bairiak_enums_code := imports_code ++ ("\n").data ++ enums_code
        if writeOk then (.ok (), [bairiak_enums_code])
        else (.error BairiakError.WriteFileError, [bairiak_enums_code])

/-- Equality of `Except` results is decidable when both components are. -/
instance {e a : Type} [DecidableEq e] [DecidableEq a] : DecidableEq (Except e a) := fun x y =>
  match x, y with
  | .ok u, .ok v =>
    match decEq u v with
    | isTrue h => isTrue (by rw [h])
    | isFalse h => isFalse (fun hh => h (Except.ok.inj hh))
  | .error u, .error v =>
    match decEq u v with
    | isTrue h => isTrue (by rw [h])
    | isFalse h => isFalse (fun hh => h (Except.error.inj hh))
  | .ok _, .error _ => isFalse (fun hh => Except.noConfusion hh)
  | .error _, .ok _ => isFalse (fun hh => Except.noConfusion hh)

/-- The three-flag test enum of the crate's test module. -/
inductive TestEnum where
  | Flag0
  | Flag1
  | Flag2
deriving DecidableEq, Repr

/-- Bit positions of `TestEnum` (its `#[repr(u8)]` discriminants). -/
def TestEnum.toPos : TestEnum → Nat
  | .Flag0 => 0
  | .Flag1 => 1
  | .Flag2 => 2

/-- The `BairiakEnum` dictionary of `TestEnum`: 8-bit zero container and the
discriminant map. -/
def testEnumImpl : BairiakEnum TestEnum :=
  { get_zero_bairiak := Bairiak.U8 0, to_u8 := TestEnum.toPos }

/-- The end-to-end example enum: `Color` with variants `Red, Green, Blue`. -/
def colorEnum : Enum :=
  { name := ("Color").data
  , variants := [("Red").data, ("Green").data, ("Blue").data] }

/-- The text `generate_enum` emits for `colorEnum`. -/
def colorOut : List Char :=
  ("\n#[repr(u8)]\n#[allow(dead_code)]\n#[derive(Hash, Eq, PartialEq, Debug)]\nenum Color \x7b\n    Red = 0,\n    Green = 1,\n    Blue = 2,\n\x7d\n\nimpl BairiakEnum for Color \x7b\n    fn get_zero_bairiak() -> Bairiak \x7b\n        Bairiak::U8(0u8)\n    \x7d\n\n    fn to_u8(self) -> u8 \x7b\n        self as u8\n    \x7d\n\x7d\n").data

/-- An enum whose single variant name starts with a lowercase letter. -/
def badEnum : Enum :=
  { name := ("TestEnum").data, variants := [("var1").data] }

/-- A spec containing only `badEnum`. -/
def badSpec : EnumSpec := { enums := [badEnum] }

/-- An enum with a valid name, 128 variants, the first of which has an invalid
(lowercase) name. -/
def bigBadEnum : Enum :=
  { name := ("TestEnum").data
  , variants := ("bad").data :: List.replicate 127 (("V").data) }

/-- C1: width selection maps every variant count to the minimal sufficient
width: counts 0-7 give the 8-bit zero container, 8-15 the 16-bit, 16-31 the
32-bit, 32-63 the 64-bit, 64-127 the 128-bit, and every count of 128 or more
fails with `PositionOutOfRangeError`. -/
theorem generete_zero_bairiak_width_selection (n : Nat) :
    (n ≤ 7 → generete_zero_bairiak n = .ok (("Bairiak::U8(0u8)").data)) ∧
    (8 ≤ n → n ≤ 15 → generete_zero_bairiak n = .ok (("Bairiak::U16(0u16)").data)) ∧
    (16 ≤ n → n ≤ 31 → generete_zero_bairiak n = .ok (("Bairiak::U32(0u32)").data)) ∧
    (32 ≤ n → n ≤ 63 → generete_zero_bairiak n = .ok (("Bairiak::U64(0u64)").data)) ∧
    (64 ≤ n → n ≤ 127 → generete_zero_bairiak n = .ok (("Bairiak::U128(0u128)").data)) ∧
    (128 ≤ n → generete_zero_bairiak n = .error BairiakError.PositionOutOfRangeError) := by
  unfold generete_zero_bairiak
  refine ⟨fun h => ?_, fun h h2 => ?_, fun h h2 => ?_, fun h h2 => ?_, fun h h2 => ?_,
    fun h => ?_⟩
  · rw [if_pos (by omega)]
  · rw [if_neg (by omega), if_pos (by omega)]
  · rw [if_neg (by omega), if_neg (by omega), if_pos (by omega)]
  · rw [if_neg (by omega), if_neg (by omega), if_neg (by omega), if_pos (by omega)]
  · rw [if_neg (by omega), if_neg (by omega), if_neg (by omega), if_neg (by omega),
      if_pos (by omega)]
  · rw [if_neg (by omega), if_neg (by omega), if_neg (by omega), if_neg (by omega),
      if_neg (by omega)]

/-- Witness for C1 at each boundary count, including 128 itself. -/
theorem generete_zero_bairiak_width_selection_witness :
    generete_zero_bairiak 0 = .ok (("Bairiak::U8(0u8)").data) ∧
    generete_zero_bairiak 7 = .ok (("Bairiak::U8(0u8)").data) ∧
    generete_zero_bairiak 8 = .ok (("Bairiak::U16(0u16)").data) ∧
    generete_zero_bairiak 15 = .ok (("Bairiak::U16(0u16)").data) ∧
    generete_zero_bairiak 16 = .ok (("Bairiak::U32(0u32)").data) ∧
    generete_zero_bairiak 31 = .ok (("Bairiak::U32(0u32)").data) ∧
    generete_zero_bairiak 32 = .ok (("Bairiak::U64(0u64)").data) ∧
    generete_zero_bairiak 63 = .ok (("Bairiak::U64(0u64)").data) ∧
    generete_zero_bairiak 64 = .ok (("Bairiak::U128(0u128)").data) ∧
    generete_zero_bairiak 127 = .ok (("Bairiak::U128(0u128)").data) ∧
    generete_zero_bairiak 128 = .error BairiakError.PositionOutOfRangeError ∧
    generete_zero_bairiak 1000 = .error BairiakError.PositionOutOfRangeError :=
  ⟨(generete_zero_bairiak_width_selection 0).1 (by decide),
   (generete_zero_bairiak_width_selection 7).1 (by decide),
   (generete_zero_bairiak_width_selection 8).2.1 (by decide) (by decide),
   (generete_zero_bairiak_width_selection 15).2.1 (by decide) (by decide),
   (generete_zero_bairiak_width_selection 16).2.2.1 (by decide) (by decide),
   (generete_zero_bairiak_width_selection 31).2.2.1 (by decide) (by decide),
   (generete_zero_bairiak_width_selection 32).2.2.2.1 (by decide) (by decide),
   (generete_zero_bairiak_width_selection 63).2.2.2.1 (by decide) (by decide),
   (generete_zero_bairiak_width_selection 64).2.2.2.2.1 (by decide) (by decide),
   (generete_zero_bairiak_width_selection 127).2.2.2.2.1 (by decide) (by decide),
   (generete_zero_bairiak_width_selection 128).2.2.2.2.2 (by decide),
   (generete_zero_bairiak_width_selection 1000).2.2.2.2.2 (by decide)⟩

/-- Helper: `validate_enum` on an empty variant list fails with
`ParseBairiakEnumsError` whatever the name is. -/
theorem validate_enum_empty (name : List Char) :
    validate_enum name [] = .error BairiakError.ParseBairiakEnumsError := by
  unfold validate_enum
  cases h : is_camel_case name <;> simp [h]

/-- C8: every enum with an empty variant list makes `generate_enum` fail with
`ParseBairiakEnumsError`, regardless of the validity of its name. -/
theorem generate_enum_empty_variants (e : Enum) (h : e.variants = []) :
    generate_enum e = .error BairiakError.ParseBairiakEnumsError := by
  unfold generate_enum
  rw [h, validate_enum_empty]

/-- Witness for C8: an empty variant list with a valid name and with an
invalid name. -/
theorem generate_enum_empty_variants_witness :
    generate_enum { name := ("TestEnum").data, variants := [] }
      = .error BairiakError.ParseBairiakEnumsError ∧
    generate_enum { name := ("notCamel").data, variants := [] }
      = .error BairiakError.ParseBairiakEnumsError :=
  ⟨generate_enum_empty_variants _ rfl, generate_enum_empty_variants _ rfl⟩

/-- C9: for positions below the active width, `is_true` is exactly the
logical negation of `is_false`. -/
theorem is_true_eq_not_is_false {B : Type} (inst : BairiakEnum B) (b : Bairiak)
    (flag : B) (h : inst.to_u8 flag < b.width) :
    b.is_true inst flag = !(b.is_false inst flag) := rfl

/-- Witness for C9 on the 8-bit container holding 0b101: negation at
position 0, and the concrete truth values at positions 0, 1, 2. -/
theorem is_true_eq_not_is_false_witness :
    ((Bairiak.U8 5).is_true testEnumImpl TestEnum.Flag0
      = !((Bairiak.U8 5).is_false testEnumImpl TestEnum.Flag0)) ∧
    (Bairiak.U8 5).is_true testEnumImpl TestEnum.Flag0 = true ∧
    (Bairiak.U8 5).is_true testEnumImpl TestEnum.Flag1 = false ∧
    (Bairiak.U8 5).is_true testEnumImpl TestEnum.Flag2 = true :=
  ⟨is_true_eq_not_is_false testEnumImpl (Bairiak.U8 5) TestEnum.Flag0 (by decide),
   by decide, by decide, by decide⟩

/-- C10: `generate_bairiak` on the empty flag set returns exactly the
dictionary's zero container. -/
theorem generate_bairiak_empty_eq_zero {B : Type} (inst : BairiakEnum B) :
    generate_bairiak inst [] = inst.get_zero_bairiak := rfl

/-- C3: for a position below the active variant's width, `is_false` holds
exactly when the bit at that position is unset in the active integer. -/
theorem is_false_iff_bit_unset {B : Type} (inst : BairiakEnum B) (b : Bairiak)
    (flag : B) (h : inst.to_u8 flag < b.width) :
    (b.is_false inst flag = true ↔ b.value &&& (1 <<< inst.to_u8 flag) = 0) := by
  cases b <;>
    simp only [Bairiak.width] at h <;>
    simp only [Bairiak.is_false, Bairiak.value, Nat.mod_eq_of_lt h, beq_iff_eq]

/-- Witness for C3: the 8-bit container holding 0b101 queried at position 1
(bit unset) and at position 0 (bit set). -/
theorem is_false_iff_bit_unset_witness :
    ((Bairiak.U8 5).is_false testEnumImpl TestEnum.Flag1 = true ↔ 5 &&& (1 <<< 1) = 0) ∧
    ((Bairiak.U8 5).is_false testEnumImpl TestEnum.Flag0 = true ↔ 5 &&& (1 <<< 0) = 0) :=
  ⟨is_false_iff_bit_unset testEnumImpl (Bairiak.U8 5) TestEnum.Flag1 (by decide),
   is_false_iff_bit_unset testEnumImpl (Bairiak.U8 5) TestEnum.Flag0 (by decide)⟩

/-- Helper: OR-ing in two bits commutes. -/
theorem natOr_right_comm (v a c : Nat) : (v ||| a) ||| c = (v ||| c) ||| a := by
  rw [Nat.or_assoc, Nat.or_comm a c, ← Nat.or_assoc]

/-- Helper: two `set_flag` steps commute on every container. -/
theorem set_flag_right_comm (b : Bairiak) (p q : Nat) :
    (b.set_flag p).set_flag q = (b.set_flag q).set_flag p := by
  cases b <;> simp only [Bairiak.set_flag] <;> rw [natOr_right_comm]

/-- Helper: the fold of `generate_bairiak` is invariant under permutation of
the visiting order, from any starting container. -/
theorem foldl_set_flag_perm {B : Type} (inst : BairiakEnum B) {l1 l2 : List B}
    (h : l1.Perm l2) :
    ∀ b : Bairiak,
      l1.foldl (fun bairiak flag => bairiak.set_flag (inst.to_u8 flag)) b
        = l2.foldl (fun bairiak flag => bairiak.set_flag (inst.to_u8 flag)) b := by
  induction h with
  | nil => intro b; rfl
  | cons x _ ih => intro b; simp only [List.foldl_cons]; exact ih _
  | swap x y l => intro b; simp only [List.foldl_cons]; rw [set_flag_right_comm]
  | trans _ _ ih1 ih2 => intro b; rw [ih1 b, ih2 b]

/-- C7: the container produced by `generate_bairiak` does not depend on the
order in which the flags of the set are visited. -/
theorem generate_bairiak_order_independent {B : Type} (inst : BairiakEnum B)
    (l1 l2 : List B) (h : l1.Perm l2) :
    generate_bairiak inst l1 = generate_bairiak inst l2 :=
  foldl_set_flag_perm inst h inst.get_zero_bairiak

/-- Witness for C7: `{Flag0, Flag2}` visited in either order gives the same
container, the 8-bit value 0b101. -/
theorem generate_bairiak_order_independent_witness :
    generate_bairiak testEnumImpl [TestEnum.Flag0, TestEnum.Flag2]
      = generate_bairiak testEnumImpl [TestEnum.Flag2, TestEnum.Flag0] ∧
    generate_bairiak testEnumImpl [TestEnum.Flag0, TestEnum.Flag2] = Bairiak.U8 5 ∧
    generate_bairiak testEnumImpl [TestEnum.Flag2, TestEnum.Flag0] = Bairiak.U8 5 :=
  ⟨generate_bairiak_order_independent testEnumImpl _ _
      (List.Perm.swap TestEnum.Flag2 TestEnum.Flag0 []),
   by decide, by decide⟩

/-- Helper: an uppercase ASCII letter is neither a lowercase letter nor a
digit. -/
theorem isUpper_first (c : Char) (h : c.isUpper = true) :
    (c.isLower || c.isDigit) = false := by
  revert h
  simp only [Char.isUpper, Char.isLower, Char.isDigit, Bool.and_eq_true, decide_eq_true_eq,
    Bool.or_eq_false_iff, Bool.and_eq_false_iff, decide_eq_false_iff_not, not_le, ge_iff_le,
    UInt32.le_def, UInt32.lt_def, BitVec.le_def, BitVec.lt_def,
    show ((UInt32.toBitVec 48)).toNat = 48 from rfl,
    show ((UInt32.toBitVec 57)).toNat = 57 from rfl,
    show ((UInt32.toBitVec 65)).toNat = 65 from rfl,
    show ((UInt32.toBitVec 90)).toNat = 90 from rfl,
    show ((UInt32.toBitVec 97)).toNat = 97 from rfl,
    show ((UInt32.toBitVec 122)).toNat = 122 from rfl]
  intro h1
  omega

/-- Helper: the underscore is neither a lowercase letter nor a digit. -/
theorem underscore_first : (('_').isLower || ('_').isDigit) = false := by decide

/-- C4: a name passes the validator iff it is non-empty, its first character
is neither a lowercase letter nor a digit, and every subsequent character is a
word character; in particular uppercase-initial and underscore-initial names
are accepted, lowercase- or digit-initial names are rejected, and a non-word
character in the body rejects the name. -/
theorem is_camel_case_characterization (s : List Char) :
    (is_camel_case s = true ↔
      ∃ c rest, s = c :: rest ∧ c.isLower = false ∧ c.isDigit = false ∧
        ∀ x ∈ rest, isWordChar x = true) ∧
    (∀ c rest, c.isUpper = true ∨ c = '_' →
      (∀ x ∈ rest, isWordChar x = true) → is_camel_case (c :: rest) = true) ∧
    (∀ c rest, c.isLower = true ∨ c.isDigit = true →
      is_camel_case (c :: rest) = false) ∧
    (∀ c rest x, x ∈ rest → isWordChar x = false →
      is_camel_case (c :: rest) = false) := by
  refine ⟨?_, ?_, ?_, ?_⟩
  · cases s with
    | nil => simp [is_camel_case]
    | cons c rest =>
      simp only [is_camel_case, Bool.and_eq_true, Bool.not_eq_true',
        Bool.or_eq_false_iff, List.all_eq_true, List.cons.injEq]
      constructor
      · rintro ⟨⟨h1, h2⟩, h3⟩
        exact ⟨c, rest, ⟨rfl, rfl⟩, h1, h2, h3⟩
      · rintro ⟨c', rest', ⟨rfl, rfl⟩, h1, h2, h3⟩
        exact ⟨⟨h1, h2⟩, h3⟩
  · intro c rest hfirst hall
    have hfd : (c.isLower || c.isDigit) = false := by
      rcases hfirst with h | h
      · exact isUpper_first c h
      · rw [h]; exact underscore_first
    simp only [is_camel_case, hfd, Bool.not_false, Bool.true_and, List.all_eq_true]
    exact hall
  · intro c rest h
    rcases h with h | h <;> simp [is_camel_case, h]
  · intro c rest x hx hw
    have hall : rest.all isWordChar = false := by
      rw [List.all_eq_false]
      exact ⟨x, hx, by simp [hw]⟩
    simp [is_camel_case, hall]

/-- Witness for C4: accepted and rejected sample names of each kind. -/
theorem is_camel_case_characterization_witness :
    is_camel_case (("Color").data) = true ∧
    is_camel_case (("_tag").data) = true ∧
    is_camel_case (("red").data) = false ∧
    is_camel_case (("1var").data) = false ∧
    is_camel_case (("Var!").data) = false :=
  ⟨(is_camel_case_characterization []).2.1 'C' (("olor").data) (Or.inl (by decide)) (by decide),
   (is_camel_case_characterization []).2.1 '_' (("tag").data) (Or.inr rfl) (by decide),
   (is_camel_case_characterization []).2.2.1 'r' (("ed").data) (Or.inl (by decide)),
   (is_camel_case_characterization []).2.2.1 '1' (("var").data) (Or.inr (by decide)),
   (is_camel_case_characterization []).2.2.2 'V' (("ar!").data) '!' (by decide) (by decide)⟩

/-- Helper: on success the variant loop emits exactly the discriminant lines
of the variants, in original list order with consecutive indices. -/
theorem variantsCode_ok_flatten (vs : List (List Char)) :
    ∀ k body, variantsCode vs k = .ok body →
      body = (((vs.enumFrom k).map fun p => variantLine p.2 p.1).flatten) := by
  induction vs with
  | nil =>
    intro k body h
    injection h with h
    subst h
    rfl
  | cons v rest ih =>
    intro k body h
    simp only [variantsCode] at h
    by_cases hv : is_camel_case v
    · rw [if_pos hv] at h
      cases hrec : variantsCode rest (k + 1) with
      | ok tail =>
        rw [hrec] at h
        injection h with h
        subst h
        simp only [List.enumFrom, List.map_cons, List.flatten_cons]
        rw [ih (k + 1) tail hrec]
      | error e =>
        rw [hrec] at h
        exact Except.noConfusion h
    · rw [if_neg hv] at h
      exact Except.noConfusion h

/-- Helper: on success the discriminant line of the variant at index `i`
appears in the loop's output. -/
theorem variantsCode_line_infix (vs : List (List Char)) :
    ∀ k body, variantsCode vs k = .ok body →
      ∀ i (hi : i < vs.length), variantLine (vs.get ⟨i, hi⟩) (k + i) <:+: body := by
  induction vs with
  | nil =>
    intro k body _ i hi
    exact absurd hi (by simp)
  | cons v rest ih =>
    intro k body h i hi
    simp only [variantsCode] at h
    by_cases hv : is_camel_case v
    · rw [if_pos hv] at h
      cases hrec : variantsCode rest (k + 1) with
      | ok tail =>
        rw [hrec] at h
        injection h with h
        subst h
        cases i with
        | zero =>
          simpa using (List.prefix_append (variantLine v k) tail).isInfix
        | succ j =>
          have hj : j < rest.length := by simpa using hi
          have hrest := ih (k + 1) tail hrec j hj
          have harith : k + (j + 1) = k + 1 + j := by omega
          rw [harith]
          exact hrest.trans (List.suffix_append (variantLine v k) tail).isInfix
      | error e =>
        rw [hrec] at h
        exact Except.noConfusion h
    · rw [if_neg hv] at h
      exact Except.noConfusion h

/-- C5: for every enum that generates successfully, the output is the header,
the discriminant lines `v = i` of the variants in original list order, and
the trailer; it contains the literal enum name, every variant's discriminant
line, and the zero container text of the selected width (the body of the
emitted `get_zero_bairiak`). -/
theorem generate_enum_output_shape (e : Enum) (out : List Char)
    (h : generate_enum e = .ok out) :
    (∃ zero, generete_zero_bairiak e.variants.length = .ok zero ∧
      out = enumHeader e.name ++
        (((e.variants.enumFrom 0).map fun p => variantLine p.2 p.1).flatten) ++
        enumFooter e.name zero ∧
      zero <:+: out) ∧
    e.name <:+: out ∧
    ∀ i (hi : i < e.variants.length), variantLine (e.variants.get ⟨i, hi⟩) i <:+: out := by
  unfold generate_enum at h
  cases hval : validate_enum e.name e.variants with
  | error err => rw [hval] at h; exact Except.noConfusion h
  | ok u =>
    rw [hval] at h
    cases hz : generete_zero_bairiak e.variants.length with
    | error err => rw [hz] at h; exact Except.noConfusion h
    | ok zero =>
      rw [hz] at h
      cases hvc : variantsCode e.variants 0 with
      | error err => rw [hvc] at h; exact Except.noConfusion h
      | ok body =>
        rw [hvc] at h
        injection h with h
        subst h
        have hbody := variantsCode_ok_flatten e.variants 0 body hvc
        refine ⟨⟨zero, rfl, ?_, ?_⟩, ?_, ?_⟩
        · rw [hbody]
        · refine ⟨enumHeader e.name ++ body ++ implPre ++ e.name ++ implMid, implPost, ?_⟩
          simp [enumFooter, List.append_assoc]
        · refine ⟨enumHeaderPre, enumHeaderPost ++ body ++ enumFooter e.name zero, ?_⟩
          simp [enumHeader, List.append_assoc]
        · intro i hi
          have hline := variantsCode_line_infix e.variants 0 body hvc i hi
          simp only [Nat.zero_add] at hline
          exact hline.trans ⟨enumHeader e.name, enumFooter e.name zero, rfl⟩

set_option maxRecDepth 8192 in
/-- Witness for C5 on the `Color` enum with variants `Red, Green, Blue`. -/
theorem generate_enum_output_shape_witness :
    ("Color").data <:+: colorOut ∧
    variantLine (("Red").data) 0 <:+: colorOut ∧
    variantLine (("Green").data) 1 <:+: colorOut ∧
    variantLine (("Blue").data) 2 <:+: colorOut ∧
    ("Bairiak::U8(0u8)").data <:+: colorOut := by
  have h := generate_enum_output_shape colorEnum colorOut (by decide)
  refine ⟨h.2.1, h.2.2 0 (by decide), h.2.2 1 (by decide), h.2.2 2 (by decide), ?_⟩
  obtain ⟨zero, hz, _, hinf⟩ := h.1
  have hz2 : zero = ("Bairiak::U8(0u8)").data := by
    have hok : generete_zero_bairiak colorEnum.variants.length
        = Except.ok (("Bairiak::U8(0u8)").data) := by decide
    rw [hok] at hz
    exact (Except.ok.inj hz).symm
  rw [← hz2]
  exact hinf

/-- Helper: validation succeeds on a camel-shaped name and a non-empty
variant list. -/
theorem validate_enum_ok (name : List Char) (variants : List (List Char))
    (hn : is_camel_case name = true) (hne : variants ≠ []) :
    validate_enum name variants = .ok () := by
  simp [validate_enum, hn, hne]

/-- Helper: the variant loop fails with `ParseBairiakEnumsError` whenever some
variant name violates the shape rule. -/
theorem variantsCode_error_of_bad (vs : List (List Char)) :
    ∀ k, (∃ v ∈ vs, is_camel_case v = false) →
      variantsCode vs k = .error BairiakError.ParseBairiakEnumsError := by
  induction vs with
  | nil =>
    intro k h
    simp at h
  | cons v rest ih =>
    intro k h
    rcases h with ⟨w, hw, hbadw⟩
    rcases List.mem_cons.mp hw with rfl | hwrest
    · simp only [variantsCode, hbadw]
      rw [if_neg (by simp [hbadw])]
    · by_cases hv : is_camel_case v
      · simp only [variantsCode]
        rw [if_pos hv, ih (k + 1) ⟨w, hwrest, hbadw⟩]
      · simp only [variantsCode]
        rw [if_neg hv]

/-- Helper: width selection succeeds below 128 variants. -/
theorem generete_zero_ok_of_lt (n : Nat) (h : n < 128) :
    ∃ z, generete_zero_bairiak n = .ok z := by
  unfold generete_zero_bairiak
  split_ifs <;> first | exact ⟨_, rfl⟩ | omega

/-- Helper: width selection fails with `PositionOutOfRangeError` from 128
variants on. -/
theorem generete_zero_error_of_ge (n : Nat) (h : 128 ≤ n) :
    generete_zero_bairiak n = .error BairiakError.PositionOutOfRangeError := by
  unfold generete_zero_bairiak
  rw [if_neg (by omega), if_neg (by omega), if_neg (by omega), if_neg (by omega),
    if_neg (by omega)]

/-- C2 (amended): `generate_enum` validates the enum name and non-emptiness
first, then selects the width, and only then validates the variant names; so
an enum with an invalid variant name fails with `ParseBairiakEnumsError` when
its variant count is below 128, but with `PositionOutOfRangeError` when the
count is 128 or more. -/
theorem generate_enum_validation_order (e : Enum)
    (hn : is_camel_case e.name = true) (hne : e.variants ≠ [])
    (hbad : ∃ v ∈ e.variants, is_camel_case v = false) :
    (e.variants.length < 128 →
      generate_enum e = .error BairiakError.ParseBairiakEnumsError) ∧
    (128 ≤ e.variants.length →
      generate_enum e = .error BairiakError.PositionOutOfRangeError) := by
  have hv := validate_enum_ok e.name e.variants hn hne
  constructor
  · intro hlen
    obtain ⟨z, hz⟩ := generete_zero_ok_of_lt e.variants.length hlen
    have hvc := variantsCode_error_of_bad e.variants 0 hbad
    simp [generate_enum, hv, hz, hvc]
  · intro hlen
    have hz := generete_zero_error_of_ge e.variants.length hlen
    simp [generate_enum, hv, hz]

set_option maxRecDepth 8192 in
/-- C2 counterexample: an enum with 128 variants, one of which has an invalid
name, fails with `PositionOutOfRangeError`, not with the
`ParseBairiakEnumsError` the claim predicts: width selection runs before the
variant names are validated. -/
theorem generate_enum_invalid_variant_counterexample :
    (("bad").data ∈ bigBadEnum.variants ∧ is_camel_case (("bad").data) = false) ∧
    generate_enum bigBadEnum ≠ .error BairiakError.ParseBairiakEnumsError ∧
    generate_enum bigBadEnum = .error BairiakError.PositionOutOfRangeError := by
  refine ⟨⟨?_, ?_⟩, ?_, ?_⟩ <;> decide

set_option maxRecDepth 8192 in
/-- Witness for the amended C2: a small enum with an invalid variant fails
with the parse error, the 128-variant one with the out-of-range error. -/
theorem generate_enum_validation_order_witness :
    generate_enum badEnum = .error BairiakError.ParseBairiakEnumsError ∧
    generate_enum bigBadEnum = .error BairiakError.PositionOutOfRangeError :=
  ⟨(generate_enum_validation_order badEnum (by decide) (by decide)
      ⟨("var1").data, by decide, by decide⟩).1 (by decide),
   (generate_enum_validation_order bigBadEnum (by decide) (by decide)
      ⟨("bad").data, by decide, by decide⟩).2 (by decide)⟩

/-- Helper: `generate_enums` propagates the error of the first failing enum
when every enum before it succeeds. -/
theorem generate_enums_first_error (pre : List Enum) (e : Enum) (post : List Enum)
    (err : BairiakError) (hpre : ∀ x ∈ pre, ∃ c, generate_enum x = .ok c)
    (he : generate_enum e = .error err) :
    generate_enums (pre ++ e :: post) = .error err := by
  induction pre with
  | nil =>
    simp only [List.nil_append, generate_enums, he]
  | cons p ps ih =>
    obtain ⟨c, hc⟩ := hpre p (by simp)
    have hrest := ih (fun x hx => hpre x (by simp [hx]))
    simp only [List.cons_append, generate_enums, hc, List.append_eq, hrest]

/-- C6: when generation of some enum fails (all enums before it succeeding),
the pipeline returns that error and attempts no write; when all enums
generate, exactly one write is attempted, of the import preamble followed by
all fragments in spec order. -/
theorem generate_bairiak_enums_no_partial_write
    (deser : List Char → Except Unit EnumSpec) (writeOk : Bool)
    (yaml : List Char) (spec : EnumSpec) (hd : deser yaml = .ok spec) :
    (∀ pre e post err, spec.enums = pre ++ e :: post →
      (∀ x ∈ pre, ∃ c, generate_enum x = .ok c) →
      generate_enum e = .error err →
      generate_bairiak_enums (.ok yaml) deser writeOk = (.error err, [])) ∧
    (∀ code, generate_enums spec.enums = .ok code →
      (generate_bairiak_enums (.ok yaml) deser writeOk).2
        = [imports_code ++ ("\n").data ++ code]) := by
  constructor
  · intro pre e post err hsplit hpre he
    have hgen : generate_enums spec.enums = .error err := by
      rw [hsplit]
      exact generate_enums_first_error pre e post err hpre he
    simp [generate_bairiak_enums, hd, hgen]
  · intro code hcode
    cases writeOk <;> simp [generate_bairiak_enums, hd, hcode]

/-- Witness for C6: a one-enum spec whose variant name is invalid produces
the parse error and an empty write list. -/
theorem generate_bairiak_enums_no_partial_write_witness :
    generate_bairiak_enums (Except.ok []) (fun _ => Except.ok badSpec) true
      = (Except.error BairiakError.ParseBairiakEnumsError, []) :=
  (generate_bairiak_enums_no_partial_write (fun _ => Except.ok badSpec) true []
      badSpec rfl).1 [] badEnum [] BairiakError.ParseBairiakEnumsError rfl
    (by simp) (by decide)
